import Mathlib

/-!
Shallow embedding of the attendance verification and geofence validation
subsystem of the Lead-CRM repository, together with proofs of the spec
claims about it.

Components embedded (from `src/components/attendance/`):
* `geofence-validator.tsx` : `calculateDistance` (haversine) and the
  validation effect that recomputes the verdict on location updates and
  reports it to the `onValidationChange` callback.
* `attendance-view.tsx` : `handleSelfieSuccess`, the clock-in / clock-out
  recorder over the `attendance` table (keyed by `(user_id, date)`, per
  the SQL schema's `UNIQUE(user_id, date)` and the spec's persistence
  boundary contract `upsert-by-(employeeId, date)`).
* `selfie-capture.tsx` : the capture orchestrator handlers `startCamera`,
  `stopCamera`, `capturePhoto`, `confirmCapture`, `retakePhoto`,
  `handleClose`.

JavaScript `number` arithmetic is embedded as real arithmetic over `ℝ`.
External async boundaries (geolocation, camera, storage upload) are
passed in as explicit result parameters; observable side effects
(callback invocations, stream stops) are returned as event traces.
-/

/-- A WGS-84 coordinate: latitude and longitude in decimal degrees,
mirroring the `{ lat: number; lng: number }` objects of the source. -/
structure Coord where
  lat : ℝ
  lng : ℝ

/-- A configured work site: center coordinate plus allowed radius in
meters, mirroring the `workLocation` prop
`{ lat: number; lng: number; radius: number }`. -/
structure WorkSite where
  lat : ℝ
  lng : ℝ
  radius : ℝ

/-- JavaScript `Math.atan2(y, x)`: the angle of the point `(x, y)`,
in `(-π, π]`, with the standard quadrant corrections. -/
noncomputable def atan2 (y x : ℝ) : ℝ :=
  if 0 < x then Real.arctan (y / x)
  else if x < 0 ∧ 0 ≤ y then Real.arctan (y / x) + Real.pi
  else if x < 0 ∧ y < 0 then Real.arctan (y / x) - Real.pi
  else if x = 0 ∧ 0 < y then Real.pi / 2
  else if x = 0 ∧ y < 0 then -(Real.pi / 2)
  else 0

/-- The haversine great-circle distance of `geofence-validator.tsx`
(`calculateDistance`), with Earth radius `R = 6371e3` meters; argument
order is `(lat1, lng1, lat2, lng2)` exactly as in the source. -/
noncomputable def calculateDistance (lat1 lng1 lat2 lng2 : ℝ) : ℝ :=
  let R : ℝ := 6371000
  let phi1 := lat1 * Real.pi / 180
  let phi2 := lat2 * Real.pi / 180
  let dphi := (lat2 - lat1) * Real.pi / 180
  let dlam := (lng2 - lng1) * Real.pi / 180
  let a := Real.sin (dphi / 2) * Real.sin (dphi / 2) +
    Real.cos phi1 * Real.cos phi2 * (Real.sin (dlam / 2) * Real.sin (dlam / 2))
  let c := 2 * atan2 (Real.sqrt a) (Real.sqrt (1 - a))
  R * c

/-- Component state of `GeofenceValidator`: the `isWithinGeofence` and
`distance` `useState` slots (`null` is `none`). -/
structure GeofenceState where
  isWithinGeofence : Option Bool
  distance : Option ℝ

/-- One run of the `useEffect` body of `GeofenceValidator` for a given
`userLocation` value: when the location is present it recomputes the
distance, stores the verdict, and reports it to `onValidationChange`
(the second component collects the callback invocations); when the
location is absent it does nothing and invokes no callback. -/
noncomputable def geofenceStep (userLocation : Option Coord) (workLocation : WorkSite)
    (s : GeofenceState) : GeofenceState × List Bool :=
  match userLocation with
  | none => (s, [])
  | some loc =>
    let d := calculateDistance loc.lat loc.lng workLocation.lat workLocation.lng
    let isValid : Bool := if d ≤ workLocation.radius then true else false
    (⟨some isValid, some d⟩, [isValid])

/-- The verdict the rendered `GeofenceValidator` reports for a given
`userLocation`: with no location it renders the "Getting your
location..." card and reports no boolean verdict (`none`); otherwise it
renders from the stored `isWithinGeofence` state. -/
def reportedVerdict (userLocation : Option Coord) (s : GeofenceState) : Option Bool :=
  match userLocation with
  | none => none
  | some _ => s.isWithinGeofence

/-- A sequence of `userLocation` updates processed by the validator
component, returning the final state and the concatenated trace of
`onValidationChange` invocations. -/
noncomputable def geofenceRun (workLocation : WorkSite) :
    List (Option Coord) → GeofenceState → GeofenceState × List Bool
  | [], s => (s, [])
  | u :: us, s =>
    let p := geofenceStep u workLocation s
    let q := geofenceRun workLocation us p.1
    (q.1, p.2 ++ q.2)

/-- C1: for every non-absent user location and work site, the stored
verdict is `true` iff the haversine distance to the site center is at
most the site radius, and in the exact boundary case (radius equal to
the computed distance) the verdict is `true` (inclusive boundary). -/
theorem claim_C1 (loc : Coord) (site : WorkSite) (s : GeofenceState) :
    ((geofenceStep (some loc) site s).1.isWithinGeofence = some true
      ↔ calculateDistance loc.lat loc.lng site.lat site.lng ≤ site.radius)
    ∧ (geofenceStep (some loc)
        { site with radius := calculateDistance loc.lat loc.lng site.lat site.lng }
        s).1.isWithinGeofence = some true := by
  constructor
  · by_cases h : calculateDistance loc.lat loc.lng site.lat site.lng ≤ site.radius <;>
      simp [geofenceStep, h]
  · simp [geofenceStep]

/-- C6: whenever the user location is absent the validator reports
neither a true nor a false verdict (the rendered result is `none`,
"awaiting location"), and the effect invokes no callback and leaves the
state untouched. -/
theorem claim_C6 (site : WorkSite) (s : GeofenceState) :
    geofenceStep none site s = (s, []) ∧ reportedVerdict none s = none := by
  exact ⟨rfl, rfl⟩

/-- C10: the validation callback fires only on updates whose user
location is present (the trace has exactly one entry per non-absent
update), and an absent update after any sequence of updates invokes no
further callback and changes nothing, so the last delivered verdict
remains in force. -/
theorem claim_C10 (site : WorkSite) (us : List (Option Coord)) (s : GeofenceState) :
    geofenceRun site (us ++ [none]) s = geofenceRun site us s
    ∧ (geofenceRun site us s).2.length = us.countP (fun u => u.isSome) := by
  constructor
  · induction us generalizing s with
    | nil => simp [geofenceRun, geofenceStep]
    | cons u us ih => simp [geofenceRun, ih]
  · induction us generalizing s with
    | nil => simp [geofenceRun]
    | cons u us ih =>
      cases u with
      | none => simp [geofenceRun, geofenceStep, ih]
      | some loc => simp [geofenceRun, geofenceStep, ih]

/-- For two points on the same meridian whose half latitude difference
is `-t` with `0 < t < π/2`, the haversine computation collapses: the
longitude term vanishes, the square roots recover `sin t` and `cos t`,
and `atan2` inverts the tangent, giving distance `R * (2 * t)`. -/
theorem calculateDistance_sameLng (lat1 lng lat2 t : ℝ)
    (hdphi : (lat2 - lat1) * Real.pi / 180 / 2 = -t)
    (h0 : 0 < t) (h2 : t < Real.pi / 2) :
    calculateDistance lat1 lng lat2 lng = 6371000 * (2 * t) := by
  have hpi : (0 : ℝ) < Real.pi := Real.pi_pos
  have htpi : t < Real.pi := lt_trans h2 (by linarith)
  have hsin : 0 < Real.sin t := Real.sin_pos_of_pos_of_lt_pi h0 htpi
  have hcos : 0 < Real.cos t := Real.cos_pos_of_mem_Ioo ⟨by linarith, h2⟩
  unfold calculateDistance
  simp only [sub_self, zero_mul, zero_div, Real.sin_zero, mul_zero, add_zero]
  rw [hdphi, Real.sin_neg, neg_mul_neg]
  have hs : Real.sqrt (Real.sin t * Real.sin t) = Real.sin t :=
    Real.sqrt_mul_self (le_of_lt hsin)
  have h1a : 1 - Real.sin t * Real.sin t = Real.cos t * Real.cos t := by
    nlinarith [Real.sin_sq_add_cos_sq t]
  have hc : Real.sqrt (Real.cos t * Real.cos t) = Real.cos t :=
    Real.sqrt_mul_self (le_of_lt hcos)
  rw [hs, h1a, hc]
  unfold atan2
  rw [if_pos hcos, ← Real.tan_eq_sin_div_cos, Real.arctan_tan (by linarith) h2]

/-- The concrete scenario distance: from user location
`(40.0009, -74.0)` to site center `(40.0, -74.0)` the code computes
exactly `6371000 * π / 200000` meters (about `100.0754`). -/
theorem calculateDistance_scenario :
    calculateDistance 40.0009 (-74) 40 (-74) = 6371000 * (2 * (Real.pi / 400000)) := by
  have hpi : (0 : ℝ) < Real.pi := Real.pi_pos
  refine calculateDistance_sameLng 40.0009 (-74) 40 (Real.pi / 400000) ?_ (by positivity) ?_
  · have h : ((40 : ℝ) - 40.0009) = -(9 / 10000) := by norm_num
    rw [h]; ring
  · nlinarith

/-- Numeric bounds for the scenario distance: it lies strictly between
`100.07` and `100.08` meters — in particular strictly above both radius
`100` and radius `99`. -/
theorem calculateDistance_scenario_bounds :
    100.07 < calculateDistance 40.0009 (-74) 40 (-74)
    ∧ calculateDistance 40.0009 (-74) 40 (-74) < 100.08 := by
  rw [calculateDistance_scenario]
  have h1 : 3.141592 < Real.pi := Real.pi_gt_d6
  have h2 : Real.pi < 3.141593 := Real.pi_lt_d6
  constructor <;> nlinarith

/-- C2 counterexample: at site center `(40.0, -74.0)` with radius
`100` and user location `(40.0009, -74.0)`, the validator's verdict is
NOT true — the computed distance is about `100.075 > 100` — refuting the
claim that `withinFence` is true at radius `100`. -/
theorem claim_C2_counterexample :
    ¬ ((geofenceStep (some ⟨40.0009, -74⟩) ⟨40, -74, 100⟩
        ⟨none, none⟩).1.isWithinGeofence = some true) := by
  have hb := calculateDistance_scenario_bounds
  have h : ¬ (calculateDistance 40.0009 (-74) 40 (-74) ≤ (100 : ℝ)) := by
    have := hb.1
    intro hle
    have : (100.07 : ℝ) < 100 := lt_of_lt_of_le this hle
    norm_num at this
  simp [geofenceStep, h]

/-- C2 amended: for site center `(40.0, -74.0)` and user location
`(40.0009, -74.0)` the haversine distance is about `100.075` m (strictly
between `100.07` and `100.08`), so the validator's verdict is false at
radius `100` and false at radius `99`. -/
theorem claim_C2_amended :
    100.07 < calculateDistance 40.0009 (-74) 40 (-74)
    ∧ calculateDistance 40.0009 (-74) 40 (-74) < 100.08
    ∧ (geofenceStep (some ⟨40.0009, -74⟩) ⟨40, -74, 100⟩
        ⟨none, none⟩).1.isWithinGeofence = some false
    ∧ (geofenceStep (some ⟨40.0009, -74⟩) ⟨40, -74, 99⟩
        ⟨none, none⟩).1.isWithinGeofence = some false := by
  have hb := calculateDistance_scenario_bounds
  refine ⟨hb.1, hb.2, ?_, ?_⟩
  · have h : ¬ (calculateDistance 40.0009 (-74) 40 (-74) ≤ (100 : ℝ)) := by
      intro hle
      have : (100.07 : ℝ) < 100 := lt_of_lt_of_le hb.1 hle
      norm_num at this
    simp [geofenceStep, h]
  · have h : ¬ (calculateDistance 40.0009 (-74) 40 (-74) ≤ (99 : ℝ)) := by
      intro hle
      have : (100.07 : ℝ) < 99 := lt_of_lt_of_le hb.1 hle
      norm_num at this
    simp [geofenceStep, h]

/-- The `attendance_status` enum of the SQL schema, as used by
`attendance-view.tsx`. -/
inductive AttendanceStatus where
  | present
  | absent
  | late
  | early_departure
deriving DecidableEq, Repr

/-- One row of the `attendance` table, restricted to the columns the
recorder reads or writes. Timestamps and GPS points are kept as the
strings the client writes (`toISOString`, `POINT(lng lat)`). -/
structure AttendanceRecord where
  user_id : String
  date : String
  clock_in : Option String
  clock_out : Option String
  status : AttendanceStatus
  selfie_url : Option String
  clock_in_location : Option String
  clock_out_location : Option String
deriving DecidableEq, Repr

/-- Whether a record belongs to the given employee and day — the
`(user_id, date)` key of the schema's `UNIQUE(user_id, date)`. -/
def matchesKey (u d : String) (r : AttendanceRecord) : Bool :=
  r.user_id == u && r.date == d

/-- Overwrite of the columns the clock-in upsert supplies
(`clock_in`, `status`, `selfie_url`, `clock_in_location`); the other
columns of the row are untouched. -/
def clockInUpdate (now url loc : String) (r : AttendanceRecord) : AttendanceRecord :=
  { r with clock_in := some now, status := AttendanceStatus.present,
           selfie_url := some url, clock_in_location := some loc }

/-- Overwrite of the columns the clock-out update supplies
(`clock_out`, `clock_out_location`). -/
def clockOutUpdate (now loc : String) (r : AttendanceRecord) : AttendanceRecord :=
  { r with clock_out := some now, clock_out_location := some loc }

/-- The fresh row the clock-in upsert inserts when no row for the
employee and day exists yet. -/
def freshRow (u d now url loc : String) : AttendanceRecord :=
  { user_id := u, date := d, clock_in := some now, clock_out := none,
    status := AttendanceStatus.present, selfie_url := some url,
    clock_in_location := some loc, clock_out_location := none }

/-- The `clock_in` branch of `handleSelfieSuccess`: an upsert of
`{user_id, date, clock_in, status: "present", selfie_url,
clock_in_location}` into the attendance store. The persistence boundary
is external (a hosted database client); per the spec's interface
contract it is an upsert keyed by `(employeeId, date)`: an existing row
for the key has the supplied columns overwritten, otherwise a fresh row
is inserted. -/
def clockIn (db : List AttendanceRecord) (u d now url loc : String) :
    List AttendanceRecord :=
  if db.any (matchesKey u d) then
    db.map (fun r => if matchesKey u d r then clockInUpdate now url loc r else r)
  else
    db ++ [freshRow u d now url loc]

/-- The lookup of today's record performed by `loadAttendanceData`
(`records.find((r) => r.date === today)` over the employee's rows). -/
def findToday (db : List AttendanceRecord) (u d : String) : Option AttendanceRecord :=
  db.find? (matchesKey u d)

/-- The `clock_out` branch of `handleSelfieSuccess`: guarded by
`if (!todayRecord) return` — with no record for the employee and day the
call is a no-op; otherwise the row for the key has `clock_out` and
`clock_out_location` set. -/
def clockOut (db : List AttendanceRecord) (u d now loc : String) :
    List AttendanceRecord :=
  if (findToday db u d).isSome then
    db.map (fun r => if matchesKey u d r then clockOutUpdate now loc r else r)
  else db

/-- The schema invariant `UNIQUE(user_id, date)`: no two rows of the
store share an employee and day. -/
def keysUnique (db : List AttendanceRecord) : Prop :=
  db.Pairwise (fun r1 r2 => ¬ (r1.user_id = r2.user_id ∧ r1.date = r2.date))

/-- A record matches the key exactly when its `user_id` and `date`
columns equal it. -/
theorem matchesKey_iff (u d : String) (r : AttendanceRecord) :
    matchesKey u d r = true ↔ r.user_id = u ∧ r.date = d := by
  simp [matchesKey]

/-- Filtering by the key commutes with a map that rewrites exactly the
key's rows, provided the rewrite preserves the key columns. -/
theorem filter_map_update (u d : String) (f : AttendanceRecord → AttendanceRecord)
    (hf : ∀ r, matchesKey u d (f r) = matchesKey u d r) (db : List AttendanceRecord) :
    (db.map (fun r => if matchesKey u d r then f r else r)).filter (matchesKey u d)
      = (db.filter (matchesKey u d)).map f := by
  induction db with
  | nil => rfl
  | cons a l ih =>
    by_cases hk : matchesKey u d a = true
    · simp only [List.map_cons, if_pos hk, List.filter_cons, hf a, hk, ite_true, ih,
        List.map_cons]
    · have hk' : matchesKey u d a = false := by
        cases h : matchesKey u d a with
        | true => exact absurd h hk
        | false => rfl
      simp only [List.map_cons, hk', Bool.false_eq_true, if_false, List.filter_cons, ih]

/-- Under the uniqueness invariant, a store that contains a row for the
key filters down to exactly that row. -/
theorem filter_eq_singleton_of_mem (u d : String) (db : List AttendanceRecord)
    (h : keysUnique db) (r0 : AttendanceRecord) (hr : r0 ∈ db)
    (hk : matchesKey u d r0 = true) :
    db.filter (matchesKey u d) = [r0] := by
  induction db with
  | nil => cases hr
  | cons a l ih =>
    rw [keysUnique, List.pairwise_cons] at h
    rcases List.mem_cons.mp hr with rfl | hmem
    · rw [List.filter_cons, if_pos hk]
      have hnil : l.filter (matchesKey u d) = [] := by
        apply List.eq_nil_iff_forall_not_mem.mpr
        intro x hx
        rcases List.mem_filter.mp hx with ⟨hxl, hxk⟩
        rcases (matchesKey_iff u d x).mp hxk with ⟨hxu, hxd⟩
        rcases (matchesKey_iff u d r0).mp hk with ⟨hru, hrd⟩
        exact h.1 x hxl ⟨hru.trans hxu.symm, hrd.trans hxd.symm⟩
      rw [hnil]
    · have hka : matchesKey u d a = false := by
        cases hc : matchesKey u d a with
        | false => rfl
        | true =>
          rcases (matchesKey_iff u d a).mp hc with ⟨hau, had⟩
          rcases (matchesKey_iff u d r0).mp hk with ⟨hru, hrd⟩
          exact absurd ⟨hau.trans hru.symm, had.trans hrd.symm⟩ (h.1 r0 hmem)
      rw [List.filter_cons, hka]
      simp only [Bool.false_eq_true, if_false]
      exact ih h.2 hmem

/-- C3: with no attendance record carrying a prior clock-in for the
employee and day — under the reachable-state invariant that every
stored row has a clock-in — a clock-out call is rejected by the
`if (!todayRecord) return` guard: the store is returned unchanged, so no
record is created and no clock-out data is written. -/
theorem claim_C3 (db : List AttendanceRecord) (u d now loc : String)
    (hinv : ∀ r ∈ db, r.clock_in ≠ none)
    (h : ¬ ∃ r ∈ db, matchesKey u d r = true ∧ r.clock_in ≠ none) :
    clockOut db u d now loc = db := by
  have hfind : findToday db u d = none := by
    rw [findToday, List.find?_eq_none]
    intro r hr hk
    exact h ⟨r, hr, hk, hinv r hr⟩
  rw [clockOut, hfind]
  rfl

/-- Witness for C3 at the empty store. -/
theorem claim_C3_witness :
    (∀ r ∈ ([] : List AttendanceRecord), r.clock_in ≠ none)
    ∧ (¬ ∃ r ∈ ([] : List AttendanceRecord),
        matchesKey "u1" "2026-01-01" r = true ∧ r.clock_in ≠ none)
    ∧ clockOut [] "u1" "2026-01-01" "2026-01-01T17:00:00Z" "POINT(-74 40)" = [] :=
  ⟨by simp, by simp,
   claim_C3 [] "u1" "2026-01-01" "2026-01-01T17:00:00Z" "POINT(-74 40)"
     (by simp) (by simp)⟩

/-- C5: when a row for the employee and day already holds a clock-in, a
second clock-in overwrites it: the call succeeds, exactly one row for
the key remains, and its clock-in timestamp, selfie reference and
coordinate are replaced by the new values (the filter of the resulting
store by the key is exactly the overwritten row). -/
theorem claim_C5 (db : List AttendanceRecord) (u d t0 now url loc : String)
    (r0 : AttendanceRecord) (h : keysUnique db) (hr : r0 ∈ db)
    (hu : r0.user_id = u) (hd : r0.date = d) (hprev : r0.clock_in = some t0) :
    (clockIn db u d now url loc).filter (matchesKey u d)
      = [clockInUpdate now url loc r0] := by
  have hk : matchesKey u d r0 = true := (matchesKey_iff u d r0).mpr ⟨hu, hd⟩
  have hany : db.any (matchesKey u d) = true := List.any_eq_true.mpr ⟨r0, hr, hk⟩
  rw [clockIn, if_pos hany,
    filter_map_update u d (clockInUpdate now url loc) (fun r => rfl) db,
    filter_eq_singleton_of_mem u d db h r0 hr hk, List.map_cons, List.map_nil]

/-- A sample pre-existing attendance row used by concrete witnesses. -/
def sampleRecord : AttendanceRecord :=
  { user_id := "u1", date := "2026-01-01", clock_in := some "2026-01-01T08:00:00Z",
    clock_out := none, status := AttendanceStatus.present,
    selfie_url := some "https://x/old.jpg", clock_in_location := some "POINT(-74 40)",
    clock_out_location := none }

/-- Witness for C5 at a one-row store already clocked in. -/
theorem claim_C5_witness :
    keysUnique [sampleRecord] ∧ sampleRecord ∈ [sampleRecord]
    ∧ sampleRecord.user_id = "u1" ∧ sampleRecord.date = "2026-01-01"
    ∧ sampleRecord.clock_in = some "2026-01-01T08:00:00Z"
    ∧ (clockIn [sampleRecord] "u1" "2026-01-01" "2026-01-01T09:00:00Z"
        "https://x/new.jpg" "POINT(-74.001 40.001)").filter
          (matchesKey "u1" "2026-01-01")
      = [clockInUpdate "2026-01-01T09:00:00Z" "https://x/new.jpg"
          "POINT(-74.001 40.001)" sampleRecord] :=
  ⟨by simp [keysUnique], by simp, rfl, rfl, rfl,
   claim_C5 [sampleRecord] "u1" "2026-01-01" "2026-01-01T08:00:00Z"
     "2026-01-01T09:00:00Z" "https://x/new.jpg" "POINT(-74.001 40.001)" sampleRecord
     (by simp [keysUnique]) (by simp) rfl rfl rfl⟩

/-- Projection forgetting the two columns a clock-out writes, used to
state the clock-out frame property. -/
def stripClockOut (r : AttendanceRecord) : AttendanceRecord :=
  { r with clock_out := none, clock_out_location := none }

/-- The conditional clock-in overwrite preserves the key columns. -/
theorem clockInRow_key (u d now url loc : String) (r : AttendanceRecord) :
    (if matchesKey u d r then clockInUpdate now url loc r else r).user_id = r.user_id
    ∧ (if matchesKey u d r then clockInUpdate now url loc r else r).date = r.date := by
  by_cases hk : matchesKey u d r = true <;> simp [hk, clockInUpdate]

/-- Clock-in preserves the `UNIQUE(user_id, date)` invariant. -/
theorem keysUnique_clockIn (db : List AttendanceRecord) (u d now url loc : String)
    (h : keysUnique db) : keysUnique (clockIn db u d now url loc) := by
  rw [clockIn]
  by_cases hany : db.any (matchesKey u d) = true
  · simp only [hany, if_true]
    refine List.Pairwise.map _ ?_ h
    intro a b hab hcon
    rcases hcon with ⟨h1, h2⟩
    rw [(clockInRow_key u d now url loc a).1, (clockInRow_key u d now url loc b).1] at h1
    rw [(clockInRow_key u d now url loc a).2, (clockInRow_key u d now url loc b).2] at h2
    exact hab ⟨h1, h2⟩
  · rw [if_neg hany, keysUnique, List.pairwise_append]
    refine ⟨h, List.pairwise_singleton _ _, ?_⟩
    intro a ha b hb hcon
    rcases List.mem_singleton.mp hb with rfl
    apply hany
    exact List.any_eq_true.mpr ⟨a, ha, (matchesKey_iff u d a).mpr ⟨hcon.1, hcon.2⟩⟩

/-- Mapping the strip projection over a conditional clock-out overwrite
is the same as mapping it over the original rows. -/
theorem map_strip_clockOutUpdate (u d now loc : String) (db : List AttendanceRecord) :
    (db.map (fun r => if matchesKey u d r then clockOutUpdate now loc r else r)).map
        stripClockOut
      = db.map stripClockOut := by
  induction db with
  | nil => rfl
  | cons a l ih =>
    simp only [List.map_cons, ih]
    by_cases hk : matchesKey u d a = true <;> simp [hk, stripClockOut, clockOutUpdate]

/-- After a clock-in, the store filtered by the key is a single row
whose written columns hold the supplied clock-in data. -/
theorem clockIn_filter_key (db : List AttendanceRecord) (u d t1 url loc : String)
    (h : keysUnique db) :
    ∃ x, (clockIn db u d t1 url loc).filter (matchesKey u d) = [x]
      ∧ x.user_id = u ∧ x.date = d ∧ x.clock_in = some t1
      ∧ x.status = AttendanceStatus.present ∧ x.selfie_url = some url
      ∧ x.clock_in_location = some loc := by
  by_cases hany : db.any (matchesKey u d) = true
  · rcases List.any_eq_true.mp hany with ⟨r0, hr0, hk0⟩
    refine ⟨clockInUpdate t1 url loc r0, ?_, ?_⟩
    · rw [clockIn, if_pos hany,
        filter_map_update u d (clockInUpdate t1 url loc) (fun r => rfl) db,
        filter_eq_singleton_of_mem u d db h r0 hr0 hk0, List.map_cons, List.map_nil]
    · rcases (matchesKey_iff u d r0).mp hk0 with ⟨hu, hd⟩
      exact ⟨hu, hd, rfl, rfl, rfl, rfl⟩
  · refine ⟨freshRow u d t1 url loc, ?_, rfl, rfl, rfl, rfl, rfl, rfl⟩
    rw [clockIn, if_neg hany, List.filter_append]
    have hnil : db.filter (matchesKey u d) = [] := by
      apply List.eq_nil_iff_forall_not_mem.mpr
      intro x hx
      rcases List.mem_filter.mp hx with ⟨hxl, hxk⟩
      exact hany (List.any_eq_true.mpr ⟨x, hxl, hxk⟩)
    have hkf : matchesKey u d (freshRow u d t1 url loc) = true := by
      simp [matchesKey, freshRow]
    rw [hnil, List.nil_append, List.filter_cons, hkf]
    rfl

/-- C8: a clock-out changes only the clock-out timestamp and clock-out
coordinate of the store (projecting those two columns away, the store is
unchanged row for row); a clock-in never writes a status other than
`present` (every resulting row is `present` or carries a pre-existing
status); and a clock-in followed by a clock-out for the same employee
and day leaves exactly one row for the key, with both timestamps set and
status `present`. -/
theorem claim_C8 (db : List AttendanceRecord) (u d t1 url loc t2 loc2 now lo : String)
    (h : keysUnique db) :
    ((clockOut db u d now lo).map stripClockOut = db.map stripClockOut)
    ∧ (∀ r ∈ clockIn db u d t1 url loc,
        r.status = AttendanceStatus.present ∨ ∃ r2 ∈ db, r.status = r2.status)
    ∧ ((clockOut (clockIn db u d t1 url loc) u d t2 loc2).filter (matchesKey u d)
        = [{ user_id := u, date := d, clock_in := some t1, clock_out := some t2,
             status := AttendanceStatus.present, selfie_url := some url,
             clock_in_location := some loc, clock_out_location := some loc2 }]) := by
  refine ⟨?_, ?_, ?_⟩
  · rw [clockOut]
    by_cases hf : (findToday db u d).isSome = true
    · rw [if_pos hf, map_strip_clockOutUpdate]
    · rw [if_neg hf]
  · intro r hr
    rw [clockIn] at hr
    by_cases hany : db.any (matchesKey u d) = true
    · rw [if_pos hany] at hr
      rcases List.mem_map.mp hr with ⟨r', hr', rfl⟩
      by_cases hk : matchesKey u d r' = true
      · left
        simp [hk, clockInUpdate]
      · right
        refine ⟨r', hr', ?_⟩
        simp [hk]
    · rw [if_neg hany] at hr
      rcases List.mem_append.mp hr with hmem | hnew
      · right
        exact ⟨r, hmem, rfl⟩
      · left
        rcases List.mem_singleton.mp hnew with rfl
        rfl
  · rcases clockIn_filter_key db u d t1 url loc h with
      ⟨x, hx, hxu, hxd, hxin, hxst, hxsf, hxloc⟩
    have hxmem : x ∈ clockIn db u d t1 url loc ∧ matchesKey u d x = true := by
      have hm : x ∈ (clockIn db u d t1 url loc).filter (matchesKey u d) := by
        rw [hx]
        exact List.mem_singleton.mpr rfl
      exact ⟨(List.mem_filter.mp hm).1, (List.mem_filter.mp hm).2⟩
    have hsome : (findToday (clockIn db u d t1 url loc) u d).isSome = true := by
      cases hfind : findToday (clockIn db u d t1 url loc) u d with
      | some y => rfl
      | none =>
        exfalso
        rw [findToday, List.find?_eq_none] at hfind
        exact hfind x hxmem.1 hxmem.2
    rw [clockOut, if_pos hsome,
      filter_map_update u d (clockOutUpdate t2 loc2) (fun r => rfl) _, hx,
      List.map_cons, List.map_nil]
    obtain ⟨xu, xd, xci, xco, xst, xsu, xcil, xcol⟩ := x
    dsimp only at hxu hxd hxin hxst hxsf hxloc
    subst hxu hxd hxin hxst hxsf hxloc
    rfl

/-- Witness for C8 at the empty store with concrete inputs. -/
theorem claim_C8_witness :
    keysUnique ([] : List AttendanceRecord)
    ∧ (((clockOut [] "u1" "2026-01-01" "n" "l").map stripClockOut
          = ([] : List AttendanceRecord).map stripClockOut)
      ∧ (∀ r ∈ clockIn [] "u1" "2026-01-01" "t1" "s1" "l1",
          r.status = AttendanceStatus.present
          ∨ ∃ r2 ∈ ([] : List AttendanceRecord), r.status = r2.status)
      ∧ ((clockOut (clockIn [] "u1" "2026-01-01" "t1" "s1" "l1")
              "u1" "2026-01-01" "t2" "l2").filter (matchesKey "u1" "2026-01-01")
          = [{ user_id := "u1", date := "2026-01-01", clock_in := some "t1",
               clock_out := some "t2", status := AttendanceStatus.present,
               selfie_url := some "s1", clock_in_location := some "l1",
               clock_out_location := some "l2" }])) :=
  ⟨List.Pairwise.nil,
   claim_C8 [] "u1" "2026-01-01" "t1" "s1" "l1" "t2" "l2" "n" "l" List.Pairwise.nil⟩

/-- Observable effects of the capture orchestrator: geolocation
resolution outcomes, the rasterization of the still frame
(`drawImage` / `toDataURL`), camera-track stops, upload outcomes, and
the `onSuccess` / `onClose` callback invocations. -/
inductive CaptureEvent where
  | locSuccess
  | locFailure
  | rasterize
  | stopStream
  | uploadSuccess
  | uploadFailure
  | successCallback
  | closeCallback
deriving DecidableEq, Repr

/-- Component state of `SelfieCapture`: the `useState` slots plus the
`streamRef` camera-stream handle (`true` when a stream is held). -/
structure CaptureState where
  isCapturing : Bool
  capturedImage : Option String
  isProcessing : Bool
  location : Option Coord
  error : Option String
  streamActive : Bool

/-- `startCamera`: clears the error, then requests the camera; on
success the stream is held and the live preview starts, on denial the
error slot is set. The camera boundary outcome is `camOk`. -/
def startCamera (camOk : Bool) (s : CaptureState) : CaptureState × List CaptureEvent :=
  if camOk then
    ({ s with error := none, streamActive := true, isCapturing := true }, [])
  else
    ({ s with error := some "Camera access denied. Please allow camera permissions." }, [])

/-- `stopCamera`: stops every track of the held stream (observable as
one `stopStream` event) and clears the handle; with no held stream it
stops nothing. `isCapturing` is cleared either way. -/
def stopCamera (s : CaptureState) : CaptureState × List CaptureEvent :=
  if s.streamActive then
    ({ s with streamActive := false, isCapturing := false }, [CaptureEvent.stopStream])
  else
    ({ s with isCapturing := false }, [])

/-- `capturePhoto`: with the video and canvas refs mounted, first
awaits `getCurrentLocation` (outcome `locResult`; `none` covers
permission denied, timeout and unsupported); on failure only the error
slot is set and no frame is rasterized; on success the location is
stored, then — if a 2d context is available (`ctxOk`) — the still frame
is rasterized to `img`, stored, and the camera stopped. -/
def capturePhoto (refsReady : Bool) (locResult : Option Coord) (ctxOk : Bool)
    (img : String) (s : CaptureState) : CaptureState × List CaptureEvent :=
  if refsReady then
    match locResult with
    | none =>
      ({ s with error := some "Failed to capture photo or get location. Please try again." },
       [CaptureEvent.locFailure])
    | some loc =>
      if ctxOk then
        let p := stopCamera { s with location := some loc, capturedImage := some img }
        (p.1, [CaptureEvent.locSuccess, CaptureEvent.rasterize] ++ p.2)
      else
        ({ s with location := some loc }, [CaptureEvent.locSuccess])
  else (s, [])

/-- `confirmCapture`: guarded on a captured image and a resolved
location; uploads the image (outcome `uploadResult`); on success the
caller's success and close callbacks fire and the capture slots are
cleared; on failure only the error slot is set — image and location are
retained. `isProcessing` is toggled and restored by the `finally`. -/
def confirmCapture (uploadResult : Option String) (s : CaptureState) :
    CaptureState × List CaptureEvent :=
  match s.capturedImage, s.location with
  | some _, some _ =>
    match uploadResult with
    | some _ =>
      ({ s with capturedImage := none, location := none, isProcessing := false },
       [CaptureEvent.uploadSuccess, CaptureEvent.successCallback,
        CaptureEvent.closeCallback])
    | none =>
      ({ s with error := some "Failed to process selfie. Please try again.",
                isProcessing := false },
       [CaptureEvent.uploadFailure])
  | _, _ => (s, [])

/-- `retakePhoto`: discards the captured image and location and restarts
the camera. -/
def retakePhoto (camOk : Bool) (s : CaptureState) : CaptureState × List CaptureEvent :=
  startCamera camOk { s with capturedImage := none, location := none }

/-- `handleClose`: the explicit cancel — stops any held camera stream,
clears image, location and error, and invokes the caller's close
callback. -/
def handleClose (s : CaptureState) : CaptureState × List CaptureEvent :=
  let p := stopCamera s
  ({ p.1 with capturedImage := none, location := none, error := none },
   p.2 ++ [CaptureEvent.closeCallback])

/-- In a trace, every rasterization is preceded by a completed location
resolution: scanning left to right, a `rasterize` event is admissible
only after a `locSuccess` has been seen. -/
def locBeforeRasterize : Bool → List CaptureEvent → Bool
  | _, [] => true
  | sawLoc, e :: es =>
    match e with
    | CaptureEvent.rasterize => sawLoc && locBeforeRasterize sawLoc es
    | CaptureEvent.locSuccess => locBeforeRasterize true es
    | _ => locBeforeRasterize sawLoc es

/-- C4: when location resolution fails during capture, the only change
is the error slot — no image is rasterized or retained, the location
slot is untouched, and the session stays in its pre-capture state (the
trace is just the failure); and across every capture flow, a `rasterize`
event can only occur after a completed location resolution. -/
theorem claim_C4 (refsReady ctxOk : Bool) (locResult : Option Coord) (img : String)
    (s : CaptureState) :
    (capturePhoto true none ctxOk img s
      = ({ s with error := some "Failed to capture photo or get location. Please try again." },
         [CaptureEvent.locFailure]))
    ∧ locBeforeRasterize false (capturePhoto refsReady locResult ctxOk img s).2 = true := by
  obtain ⟨ic, ci, ip, lc, er, sa⟩ := s
  constructor
  · rfl
  · cases refsReady with
    | false => rfl
    | true =>
      cases locResult with
      | none => rfl
      | some loc =>
        cases ctxOk with
        | false => rfl
        | true =>
          cases sa with
          | false => rfl
          | true => rfl

/-- C7: a failed upload during confirmation retains both the captured
image and the resolved location unchanged; a later confirmation from
that very state succeeds end to end (success and close callbacks fire);
and the partial state is discarded by the explicit retake and cancel
handlers, which clear both slots. -/
theorem claim_C7 (s : CaptureState) (camOk : Bool) (img url : String) (loc : Coord) :
    ((confirmCapture none s).1.capturedImage = s.capturedImage
      ∧ (confirmCapture none s).1.location = s.location)
    ∧ ((confirmCapture (some url)
          (confirmCapture none
            { s with capturedImage := some img, location := some loc }).1).2
        = [CaptureEvent.uploadSuccess, CaptureEvent.successCallback,
           CaptureEvent.closeCallback])
    ∧ ((retakePhoto camOk s).1.capturedImage = none
      ∧ (retakePhoto camOk s).1.location = none)
    ∧ ((handleClose s).1.capturedImage = none ∧ (handleClose s).1.location = none) := by
  obtain ⟨ic, ci, ip, lc, er, sa⟩ := s
  refine ⟨?_, ?_, ?_, ?_⟩
  · cases ci with
    | none => exact ⟨rfl, rfl⟩
    | some i =>
      cases lc with
      | none => exact ⟨rfl, rfl⟩
      | some l => exact ⟨rfl, rfl⟩
  · rfl
  · cases camOk with
    | false => exact ⟨rfl, rfl⟩
    | true => exact ⟨rfl, rfl⟩
  · cases sa with
    | false => exact ⟨rfl, rfl⟩
    | true => exact ⟨rfl, rfl⟩

/-- C9: from every state, the explicit cancel resets the session (stream
released, live preview off, image, location and error cleared), the
camera-stream stop is invoked exactly once when a stream is held and not
at all otherwise, and a second cancel stops no tracks again. -/
theorem claim_C9 (s : CaptureState) :
    (handleClose s).1
      = { s with isCapturing := false, streamActive := false,
                 capturedImage := none, location := none, error := none }
    ∧ (handleClose s).2.count CaptureEvent.stopStream
        = (if s.streamActive then 1 else 0)
    ∧ (handleClose (handleClose s).1).2.count CaptureEvent.stopStream = 0 := by
  obtain ⟨ic, ci, ip, lc, er, sa⟩ := s
  cases sa with
  | false => exact ⟨rfl, rfl, rfl⟩
  | true => exact ⟨rfl, rfl, rfl⟩

/-- The reachable-state invariant used by C3 — every stored row carries
a clock-in — holds after any clock-in (rows are created only with a
clock-in, and overwrites keep one). -/
theorem clockIn_preserves_clockInSet (db : List AttendanceRecord)
    (u d now url loc : String) (hinv : ∀ r ∈ db, r.clock_in ≠ none) :
    ∀ r ∈ clockIn db u d now url loc, r.clock_in ≠ none := by
  intro r hr
  rw [clockIn] at hr
  by_cases hany : db.any (matchesKey u d) = true
  · rw [if_pos hany] at hr
    rcases List.mem_map.mp hr with ⟨r', hr', rfl⟩
    by_cases hk : matchesKey u d r' = true
    · simp [hk, clockInUpdate]
    · simpa [hk] using hinv r' hr'
  · rw [if_neg hany] at hr
    rcases List.mem_append.mp hr with hmem | hnew
    · exact hinv r hmem
    · rcases List.mem_singleton.mp hnew with rfl
      simp [freshRow]

/-- The reachable-state invariant used by C3 also holds after any
clock-out (the clock-in column is never cleared). -/
theorem clockOut_preserves_clockInSet (db : List AttendanceRecord)
    (u d now loc : String) (hinv : ∀ r ∈ db, r.clock_in ≠ none) :
    ∀ r ∈ clockOut db u d now loc, r.clock_in ≠ none := by
  intro r hr
  rw [clockOut] at hr
  by_cases hf : (findToday db u d).isSome = true
  · rw [if_pos hf] at hr
    rcases List.mem_map.mp hr with ⟨r', hr', rfl⟩
    by_cases hk : matchesKey u d r' = true
    · simpa [hk, clockOutUpdate] using hinv r' hr'
    · simpa [hk] using hinv r' hr'
  · rw [if_neg hf] at hr
    exact hinv r hr
